import Mathlib

/-!
Verification of the captioning pipeline of the ImageVideoBatchCaptioners
repository.  The definitions below are shallow embeddings of the Python
functions in src/core_logic.py, src/workers.py, src/widgets.py,
captionWithOllama.py and gui_captioner.py; the theorems settle the frozen
claims about them.  The filesystem is modelled explicitly: caption files as an
association list from path to content, plain existence-only artifacts as a
list of paths.
-/

namespace Captioner

/-! ## Python string primitives

The Python string operations the code uses (str.strip, str.startswith and the
substring membership test) are embedded as structurally recursive functions on
the character list of a string, so that every definition evaluates inside the
kernel. -/

/-- The whitespace characters str.strip removes (the ASCII ones, which cover
every string handled here). -/
def isSpaceChar (c : Char) : Bool :=
  c == ' ' || c == '\t' || c == '\n' || c == '\r' || c == '\x0b' || c == '\x0c'

/-- Embedding of str.strip with no argument: drop whitespace from both
ends. -/
def pyStrip (s : String) : String :=
  ⟨(((s.data.dropWhile isSpaceChar).reverse).dropWhile isSpaceChar).reverse⟩

/-- Whether the first character list is an initial segment of the second. -/
def startsWithChars : List Char → List Char → Bool
  | [], _ => true
  | _ :: _, [] => false
  | p :: ps, c :: cs => p == c && startsWithChars ps cs

/-- Embedding of s.startswith(pat). -/
def pyStartsWith (s pat : String) : Bool := startsWithChars pat.data s.data

/-- Whether the pattern occurs starting at this position or later. -/
def containsFrom (pat : List Char) : List Char → Bool
  | [] => pat.isEmpty
  | c :: rest => startsWithChars pat (c :: rest) || containsFrom pat rest

/-- Embedding of the Python membership test pat in s. -/
def containsSub (s pat : String) : Bool := containsFrom pat.data s.data

/-! ## Caption client (core_logic.generate_caption_api and
captionWithOllama.generate_caption)

The HTTP layer is modelled by the observable outcome of the POST call: either
an exception was raised somewhere in requests.post / raise_for_status /
json(), or the call succeeded and the parsed body's response field (defaulted
to the empty string) is available. -/

/-- Outcome of the HTTP POST in core_logic.generate_caption_api: the single
except-clause catches every exception with its message, otherwise the
response field of the decoded JSON body is available. -/
inductive HttpResult where
  | failure (err : String)
  | success (responseField : String)
  deriving DecidableEq

/-- Embedding of generate_caption_api (src/core_logic.py lines 36-56, and the
identical copy in gui_captioner.py).  The base64 encoding step is modelled by
its result (none when encode_image_to_base64 returned None).  On HTTP success
the function returns the trimmed response field with no emptiness check. -/
def generate_caption_api (imageBase64 : Option String) (http : HttpResult) : String :=
  match imageBase64 with
  | none => "[ERROR] Image encoding failed."
  | some _ =>
    match http with
    | HttpResult.failure e => "[ERROR] " ++ e
    | HttpResult.success r => pyStrip r

/-- Outcome of the HTTP POST in captionWithOllama.generate_caption, which
distinguishes requests.exceptions.RequestException from other exceptions. -/
inductive CWHttpResult where
  | requestException (err : String)
  | otherException (err : String)
  | success (responseField : String)
  deriving DecidableEq

/-- Embedding of generate_caption (captionWithOllama.py lines 19-63).  On HTTP
success the trimmed response field is checked for emptiness and an explicit
error value is returned when it is empty. -/
def generate_caption (imageBase64 : Option String) (http : CWHttpResult) : String :=
  match imageBase64 with
  | none => "[ERROR] Image encoding failed."
  | some _ =>
    match http with
    | CWHttpResult.success r =>
      let caption := pyStrip r
      if caption = "" then "[ERROR] Empty caption returned." else caption
    | CWHttpResult.requestException _ => "[ERROR] Connection to Ollama failed."
    | CWHttpResult.otherException _ => "[ERROR] An unknown error occurred."

/-! ## CLI dispatch (captionWithOllama.main) -/

/-- The two optional CLI arguments of captionWithOllama.main that select the
processing mode; argparse yields None when a flag is absent. -/
structure CliArgs where
  queue : Option String
  directory : Option String
  deriving DecidableEq

/-- What main does after argument parsing: process the queue file, process the
single directory, or print usage and exit with status 1. -/
inductive CliOutcome where
  | processQueue (path : String)
  | processDirectory (path : String)
  | usageExit (exitCode : Nat)
  deriving DecidableEq

/-- Python truthiness of an optional string: None and the empty string are
falsy. -/
def truthy : Option String → Bool
  | none => false
  | some s => !(s == "")

/-- Embedding of the dispatch at the end of main (captionWithOllama.py lines
123-152): an if args.queue / elif args.directory / else usage-and-exit
chain. -/
def main_dispatch (args : CliArgs) : CliOutcome :=
  if truthy args.queue then CliOutcome.processQueue (args.queue.getD (""))
  else if truthy args.directory then CliOutcome.processDirectory (args.directory.getD (""))
  else CliOutcome.usageExit 1

/-! ## Thumbnail cache (core_logic.get_thumbnail_path / ensure_thumbnail) -/

/-- An image path split into its parent directory and file name, the two
components get_thumbnail_path reads off the pathlib Path. -/
structure ImgPath where
  parent : String
  name : String
  deriving DecidableEq

/-- The full source path of an image. -/
def ImgPath.path (p : ImgPath) : String := p.parent ++ "/" ++ p.name

/-- Embedding of get_thumbnail_path (src/core_logic.py lines 16-20): the cache
location parent/.thumbnails/name.tbn.  The mkdir(exist_ok=True) call only
ensures the directory exists and is not otherwise observable here. -/
def get_thumbnail_path (p : ImgPath) : String :=
  p.parent ++ "/.thumbnails/" ++ p.name ++ ".tbn"

/-- Result of one ensure_thumbnail call: the set of existing files afterwards,
the returned displayable path, and how many times the source image was opened
and re-encoded during the call. -/
structure ThumbResult where
  files : List String
  returned : String
  encodes : Nat
  deriving DecidableEq

/-- Embedding of ensure_thumbnail (src/core_logic.py lines 22-34).  If the
cache file exists it is returned immediately with no open or re-encode of the
source; otherwise the source is opened, resized and saved (encodeOk models
whether that PIL pipeline succeeds), falling back to the source path on
failure. -/
def ensure_thumbnail (encodeOk : Bool) (files : List String) (p : ImgPath) : ThumbResult :=
  let tp := get_thumbnail_path p
  if tp ∈ files then { files := files, returned := tp, encodes := 0 }
  else if encodeOk then { files := tp :: files, returned := tp, encodes := 1 }
  else { files := files, returned := ImgPath.path p, encodes := 1 }

/-! ## Caption files on disk -/

/-- The caption sidecar portion of the filesystem: an association from file
path to text content.  Writing prepends; lookup takes the first match, so a
later write shadows an earlier one. -/
abbrev FS := List (String × String)

/-- Content of the file at a path, none when the file does not exist. -/
def FS.lookup : FS → String → Option String
  | [], _ => none
  | (q, c) :: rest, p => if p = q then some c else FS.lookup rest p

/-- write_text: create or overwrite the file at a path. -/
def FS.write (fs : FS) (p c : String) : FS := (p, c) :: fs

/-- Embedding of CaptionItem.save_caption (src/widgets.py lines 369-376 and
the identical copy in gui_captioner.py lines 433-440): trim the editor text,
and only when the trimmed text is non-empty attempt the write; writeOk models
whether write_text raises (the except-clause only prints). -/
def save_caption (writeOk : Bool) (fs : FS) (txtPath editorText : String) : FS :=
  let caption := pyStrip editorText
  if caption = "" then fs
  else if writeOk then FS.write fs txtPath caption else fs

/-! ## Deletion (gui_captioner.OllamaCaptionerApp.delete_image_item) -/

/-- The four artifact paths of one Image Entry, as computed in
delete_image_item: the source image, the .txt sidecar, the .fav marker and the
cached thumbnail. -/
structure Entry where
  image : String
  txt : String
  fav : String
  thumb : String
  deriving DecidableEq

/-- One guarded removal step of delete_image_item: an if-exists check followed
by os.remove.  err models os.remove raising for a reason other than
non-existence (for instance a permission error); the Bool result is whether no
exception was raised. -/
def removeIfExists (err : String → Bool) (files : List String) (p : String) :
    List String × Bool :=
  if p ∈ files then
    if err p then (files, false) else (files.erase p, true)
  else (files, true)

/-- Embedding of the body of delete_image_item after the user confirmed
(gui_captioner.py lines 825-846).  The source image is removed by a bare
os.remove with no existence check; the caption, favorite marker and thumbnail
removals are each guarded by an existence check.  All four run inside a single
try-block, so the first exception aborts the remaining removals while keeping
the removals already performed; the Bool result distinguishes the Deleted
status from the error status. -/
def delete_image_item (err : String → Bool) (files : List String) (e : Entry) :
    List String × Bool :=
  if e.image ∈ files ∧ err e.image = false then
    let files1 := files.erase e.image
    let r2 := removeIfExists err files1 e.txt
    if r2.2 then
      let r3 := removeIfExists err r2.1 e.fav
      if r3.2 then
        removeIfExists err r3.1 e.thumb
      else (r3.1, false)
    else (r2.1, false)
  else (files, false)

/-! ## Batch caption worker (workers.CaptionWorker.run)

The worker is a loop over the sorted scan result.  Its observable behavior is
modelled by the list of emitted Qt signals (in emission order), the final
caption filesystem, and the list of entries for which the caption client was
actually invoked.  The cooperative stop flag is modelled by the value the
per-entry check observes: stop i is the value of stop_requested read at the
boundary before entry i (0-based); the final emission reads stop at the index
where the loop ended. -/

/-- One emitted Qt signal of CaptionWorker. -/
inductive Event where
  | progress (msg : String) (pct : Nat)
  | processing (path : String)
  | imageFinished (path : String) (caption : String)
  | finished (msg : String)
  deriving DecidableEq

/-- An image file of the scan result, split into the stem and the extension so
that with_suffix txt replaces the extension faithfully. -/
structure ImageFile where
  stem : String
  ext : String
  deriving DecidableEq

/-- The image path (stem followed by extension). -/
def ImageFile.path (f : ImageFile) : String := f.stem ++ f.ext

/-- The caption sidecar path, img_file.with_suffix txt. -/
def ImageFile.txtPath (f : ImageFile) : String := f.stem ++ ".txt"

/-- The worker configuration dict: the sorted scan result of the directory,
the overwrite flag, and the caption client (generate_caption_api with the
url, model and prompt baked in), modelled as a function from the entry to the
returned caption. -/
structure Config where
  images : List ImageFile
  overwrite : Bool
  api : ImageFile → String

/-- Observable result of one worker run. -/
structure RunResult where
  fs : FS
  events : List Event
  calls : List ImageFile

/-- The status string of a progress_update emission. -/
def progressMsg (i total : Nat) (name : String) : String :=
  "Processing " ++ toString i ++ "/" ++ toString total ++ ": " ++ name

/-- The persistence guard of the worker: a caption is written only when it is
truthy (non-empty) and does not start with the error prefix. -/
def shouldWrite (caption : String) : Bool :=
  !(caption == "") && !(pyStartsWith caption ("[ERROR]"))

/-- Embedding of the for-loop of CaptionWorker.run (src/workers.py lines
26-44) starting at entry index i: check the stop flag, emit progress_update
and image_processing, reuse the existing caption when the sidecar exists and
overwrite is off, otherwise call the client and persist a successful result,
emit image_finished, recurse; the final finished emission reads the stop flag
again.  The progress percentage int((i / total) * 100) is written as Nat
division i * 100 / total, which agrees with the Python float computation at
every index of the runs considered here. -/
def runLoop (overwrite : Bool) (api : ImageFile → String) (stop : Nat → Bool)
    (total : Nat) : List ImageFile → Nat → FS → RunResult
  | [], i, fs =>
    { fs := fs
      events := [Event.finished
        (if stop i then "Processing Stopped." else "Processing Complete!")]
      calls := [] }
  | f :: rest, i, fs =>
    if stop i then
      { fs := fs, events := [Event.finished ("Processing Stopped.")], calls := [] }
    else
      let pre : List Event :=
        [Event.progress (progressMsg (i + 1) total (ImageFile.path f)) (i * 100 / total),
         Event.processing (ImageFile.path f)]
      if (FS.lookup fs (ImageFile.txtPath f)).isSome && !overwrite then
        let caption := (FS.lookup fs (ImageFile.txtPath f)).getD ("")
        let r := runLoop overwrite api stop total rest (i + 1) fs
        { fs := r.fs
          events := pre ++ Event.imageFinished (ImageFile.path f) caption :: r.events
          calls := r.calls }
      else
        let caption := api f
        let fs2 := if shouldWrite caption then FS.write fs (ImageFile.txtPath f) caption else fs
        let r := runLoop overwrite api stop total rest (i + 1) fs2
        { fs := r.fs
          events := pre ++ Event.imageFinished (ImageFile.path f) caption :: r.events
          calls := f :: r.calls }

namespace CaptionWorker

/-- Embedding of CaptionWorker.run (src/workers.py lines 16-44): an empty scan
result emits only the no-images message, otherwise the loop runs from index 0
over the whole scan result. -/
def run (cfg : Config) (stop : Nat → Bool) (fs : FS) : RunResult :=
  if cfg.images.length = 0 then
    { fs := fs, events := [Event.finished ("No images found.")], calls := [] }
  else runLoop cfg.overwrite cfg.api stop cfg.images.length cfg.images 0 fs

end CaptionWorker

/-- The percentage carried by a progress_update emission, none for the other
signals. -/
def Event.progressPct : Event → Option Nat
  | Event.progress _ n => some n
  | _ => none

/-- The path carried by an image_processing emission, none for the other
signals. -/
def Event.processedPath : Event → Option String
  | Event.processing p => some p
  | _ => none

/-- All progress percentages reported during a run, in emission order. -/
def progressPcts (evs : List Event) : List Nat := evs.filterMap Event.progressPct

/-- The paths of all entries whose processing was started, in order. -/
def processedPaths (evs : List Event) : List String :=
  evs.filterMap Event.processedPath

/-! ## Metadata extractor (core_logic.extract_comfy_prompt, structured
workflow branch)

The claim concerns the branch where the prompt metadata field parses as JSON;
the parsed value is modelled directly as the list of nodes (the dict values in
insertion order), each with its class_type and its inputs mapping. -/

/-- A JSON value stored under an input key: either a string or anything
else (the isinstance check only keeps strings). -/
inductive JVal where
  | str (s : String)
  | other
  deriving DecidableEq

/-- One node of the parsed workflow graph. -/
structure ComfyNode where
  class_type : String
  inputs : List (String × JVal)
  deriving DecidableEq

/-- The fixed list of candidate text field names. -/
def textKeys : List String := ["text", "text_g", "text_l", "string"]

/-- The strings one node contributes to prompts (src/core_logic.py lines
69-77): nothing unless the class_type contains CLIPTextEncode; otherwise, for
each candidate key in order, the trimmed value when it is a truthy string
whose trimmed length exceeds 5. -/
def collectNode (n : ComfyNode) : List String :=
  if containsSub n.class_type ("CLIPTextEncode") then
    textKeys.filterMap (fun k =>
      match List.lookup k n.inputs with
      | some (JVal.str t) =>
        if t ≠ "" ∧ 5 < (pyStrip t).length then some (pyStrip t) else none
      | _ => none)
  else []

/-- The prompts list accumulated over all nodes in order. -/
def collectPrompts (nodes : List ComfyNode) : List String :=
  (nodes.map collectNode).flatten

/-- The sort relation of unique_prompts.sort(key=len, reverse=True): longer
strings come first. -/
def longerFirst (a b : String) : Prop := b.length ≤ a.length

instance : DecidableRel longerFirst := fun a b => Nat.decLe b.length a.length

instance : IsTotal String longerFirst := ⟨fun a b => Nat.le_total b.length a.length⟩

instance : IsTrans String longerFirst := ⟨fun _ _ _ h1 h2 => Nat.le_trans h2 h1⟩

/-- Embedding of the structured branch of extract_comfy_prompt
(src/core_logic.py lines 65-82): when the collected prompts list is non-empty,
deduplicate it, sort the distinct strings longest-first with a stable sort,
and join with newlines; a run with no collected prompts falls through to the
other metadata fields, modelled here as none. -/
def extract_comfy_prompt (nodes : List ComfyNode) : Option String :=
  if collectPrompts nodes = [] then none
  else some (String.intercalate ("\n")
    (((collectPrompts nodes).dedup).insertionSort longerFirst))

/-! ## Claims about the caption client -/

/-- Claim C1 counterexample: when the HTTP POST succeeds but the response
field trims to the empty string, generate_caption_api of core_logic returns
the empty caption itself, which is not an error-prefixed failure value. -/
theorem C1_counterexample :
    generate_caption_api (some ("abc")) (HttpResult.success ("  ")) = "" ∧
    pyStartsWith ("") ("[ERROR]") = false := by
  constructor <;> decide

/-- Claim C1 (amended): when the HTTP POST succeeds and the response field
trims to the empty string, generate_caption of captionWithOllama returns the
error-prefixed empty-caption failure value, while generate_caption_api of
core_logic (and its copy in gui_captioner) returns the empty string itself,
distinguishable from a successful caption only by being falsy. -/
theorem C1_empty_response (b r : String) (h : pyStrip r = "") :
    generate_caption (some b) (CWHttpResult.success r) =
      "[ERROR] Empty caption returned." ∧
    pyStartsWith (generate_caption (some b) (CWHttpResult.success r)) ("[ERROR]") = true ∧
    generate_caption_api (some b) (HttpResult.success r) = "" := by
  have h1 : generate_caption (some b) (CWHttpResult.success r) =
      "[ERROR] Empty caption returned." := by
    simp [generate_caption, h]
  refine ⟨h1, ?_, ?_⟩
  · rw [h1]; decide
  · simp [generate_caption_api, h]

/-- Claim C1 witness: the amended behavior at a concrete whitespace-only
response. -/
theorem C1_witness :
    generate_caption (some ("img64")) (CWHttpResult.success ("  ")) =
      "[ERROR] Empty caption returned." ∧
    pyStartsWith (generate_caption (some ("img64")) (CWHttpResult.success ("  ")))
      ("[ERROR]") = true ∧
    generate_caption_api (some ("img64")) (HttpResult.success ("  ")) = "" :=
  C1_empty_response ("img64") ("  ") (by decide)

/-! ## Claims about the CLI dispatch -/

/-- Claim C7 counterexample: an invocation supplying both queue and directory
does not exit with usage; the queue branch runs. -/
theorem C7_counterexample :
    main_dispatch { queue := some ("jobs.json"), directory := some ("imgs") } =
      CliOutcome.processQueue ("jobs.json") ∧
    main_dispatch { queue := some ("jobs.json"), directory := some ("imgs") } ≠
      CliOutcome.usageExit 1 := by
  constructor <;> decide

/-- Claim C7 (amended): at least one truthy of queue and directory is
required; with neither, main exits with usage and status 1; with a truthy
queue the queue is processed regardless of directory (queue takes precedence,
no mutual-exclusion check); with only a truthy directory the directory is
processed. -/
theorem C7_dispatch (q d : Option String) :
    (truthy q = false → truthy d = false →
      main_dispatch { queue := q, directory := d } = CliOutcome.usageExit 1) ∧
    (truthy q = true →
      main_dispatch { queue := q, directory := d } =
        CliOutcome.processQueue (q.getD (""))) ∧
    (truthy q = false → truthy d = true →
      main_dispatch { queue := q, directory := d } =
        CliOutcome.processDirectory (d.getD (""))) := by
  refine ⟨fun h1 h2 => by simp [main_dispatch, h1, h2],
          fun h1 => by simp [main_dispatch, h1],
          fun h1 h2 => by simp [main_dispatch, h1, h2]⟩

/-- Claim C7 witness: supplying neither flag exits with usage and status 1. -/
theorem C7_witness :
    main_dispatch { queue := none, directory := none } = CliOutcome.usageExit 1 :=
  (C7_dispatch none none).1 rfl rfl

/-! ## Claim about the thumbnail cache -/

/-- Claim C8 (confirmed): after a call of ensure_thumbnail whose encode step
succeeds, a second call on the unchanged cache finds the cache file and
returns the cache path unconditionally with no re-open or re-encode of the
source (encode count 0) and no change to the filesystem; the second call does
not consult the source at all (its encode oracle ok2 is irrelevant), so no
freshness check against the source happens. -/
theorem C8_thumbnail_idempotent (files : List String) (p : ImgPath) (ok2 : Bool) :
    (ensure_thumbnail true files p).returned = get_thumbnail_path p ∧
    ensure_thumbnail ok2 (ensure_thumbnail true files p).files p =
      { files := (ensure_thumbnail true files p).files
        returned := get_thumbnail_path p
        encodes := 0 } := by
  by_cases h : get_thumbnail_path p ∈ files
  · simp [ensure_thumbnail, h]
  · simp [ensure_thumbnail, h]

/-! ## Claim about manual caption saving -/

/-- Claim C10 (confirmed): save_caption writes the trimmed editor text only
when it is non-empty; when the editor content trims to the empty string no
write occurs and an existing caption file keeps its previous content, so a
caption cannot be cleared through save_caption. -/
theorem C10_save_caption (writeOk : Bool) (fs : FS) (txtPath editorText : String) :
    (pyStrip editorText = "" → save_caption writeOk fs txtPath editorText = fs) ∧
    (pyStrip editorText ≠ "" → writeOk = true →
      FS.lookup (save_caption writeOk fs txtPath editorText) txtPath =
        some (pyStrip editorText)) ∧
    (∀ c, pyStrip editorText = "" → FS.lookup fs txtPath = some c →
      FS.lookup (save_caption writeOk fs txtPath editorText) txtPath = some c) := by
  refine ⟨fun h => by simp [save_caption, h],
          fun h hw => by simp [save_caption, h, hw, FS.write, FS.lookup],
          fun c h hc => by simp [save_caption, h, hc]⟩

/-- Claim C10 witness: a concrete non-empty save stores the trimmed text. -/
theorem C10_witness :
    FS.lookup (save_caption true [] ("a.txt") (" hi ")) ("a.txt") =
      some (pyStrip (" hi ")) :=
  (C10_save_caption true [] ("a.txt") (" hi ")).2.1 (by decide) rfl

/-! ## Claims about deletion -/

/-- The artifact paths of the Image Entry a.png used in the C3
counterexample. -/
def c3entry : Entry :=
  { image := "a.png", txt := "a.txt", fav := "a.png.fav", thumb := ".thumbnails/a.png.tbn" }

/-- Claim C3 counterexample: with the source image missing but its caption
sidecar present, delete_image_item reports an error (the image removal is not
guarded by an existence check) and the caption that existed prior to deletion
is not removed. -/
theorem C3_counterexample :
    delete_image_item (fun _ => false) [("a.txt")] c3entry = ([("a.txt")], false) ∧
    ("a.txt") ∈ (delete_image_item (fun _ => false) [("a.txt")] c3entry).1 := by
  constructor <;> decide

/-- A guarded removal whose os.remove does not fail removes the path when
present and is a no-op when absent. -/
theorem removeIfExists_ok (err : String → Bool) (files : List String) (p : String)
    (h : err p = false) : removeIfExists err files p = (files.erase p, true) := by
  unfold removeIfExists
  by_cases hm : p ∈ files
  · simp [hm, h]
  · simp [hm, List.erase_of_not_mem hm]

/-- Claim C3 (amended): the caption, favorite-marker and thumbnail removals
are each guarded by an existence check (a missing sidecar artifact is a
no-op), but the source image is removed unconditionally first: when the source
image is missing the operation reports an error and removes nothing.  When
every removal succeeds, exactly the artifacts that existed prior to deletion
are removed.  The four removals run sequentially inside one error handler, so
a failing later removal (shown for the favorite marker) aborts the remaining
removals but does not roll back the removals already performed. -/
theorem C3_delete_behavior (err : String → Bool) (files : List String) (e : Entry) :
    (e.image ∈ files → (∀ p, err p = false) →
      delete_image_item err files e =
        ((((files.erase e.image).erase e.txt).erase e.fav).erase e.thumb, true)) ∧
    (e.image ∉ files → delete_image_item err files e = (files, false)) ∧
    (e.image ∈ files → err e.image = false → err e.txt = false → err e.fav = true →
      e.fav ∈ (files.erase e.image).erase e.txt →
      delete_image_item err files e = ((files.erase e.image).erase e.txt, false)) := by
  refine ⟨fun hm hno => ?_, fun hm => ?_, fun hm h1 h2 h3 hfav => ?_⟩
  · simp [delete_image_item, hm, hno, removeIfExists_ok]
  · simp [delete_image_item, hm]
  · have e2 : removeIfExists err (files.erase e.image) e.txt =
        ((files.erase e.image).erase e.txt, true) := removeIfExists_ok err _ _ h2
    have e3 : removeIfExists err ((files.erase e.image).erase e.txt) e.fav =
        ((files.erase e.image).erase e.txt, false) := by
      simp [removeIfExists, hfav, h3]
    simp [delete_image_item, hm, h1, e2, e3]

/-- The artifact paths of the Image Entry b.png used in the C3 witness. -/
def c3entryB : Entry :=
  { image := "b.png", txt := "b.txt", fav := "b.png.fav", thumb := ".thumbnails/b.png.tbn" }

/-- Claim C3 witness: deleting b.png with its caption present and no
filesystem faults removes both and reports success. -/
theorem C3_witness :
    delete_image_item (fun _ => false) [("b.png"), ("b.txt")] c3entryB =
      ((((([("b.png"), ("b.txt")] : List String).erase c3entryB.image).erase
        c3entryB.txt).erase c3entryB.fav).erase c3entryB.thumb, true) :=
  (C3_delete_behavior (fun _ => false) [("b.png"), ("b.txt")] c3entryB).1 (by decide)
    (fun _ => rfl)

/-! ## Claim about the metadata extractor -/

/-- Claim C9 (confirmed): on a parsed workflow graph whose nodes contribute at
least one collected text (including when duplicate strings occur across
nodes), extract_comfy_prompt returns the distinct collected strings joined
with newlines, each exactly once, ordered longest-first. -/
theorem C9_extract_distinct_sorted (nodes : List ComfyNode)
    (hne : collectPrompts nodes ≠ []) :
    ∃ l : List String,
      extract_comfy_prompt nodes = some (String.intercalate ("\n") l) ∧
      l.Nodup ∧
      (∀ s, s ∈ l ↔ s ∈ collectPrompts nodes) ∧
      l.Sorted longerFirst := by
  refine ⟨((collectPrompts nodes).dedup).insertionSort longerFirst, ?_, ?_, ?_, ?_⟩
  · simp [extract_comfy_prompt, hne]
  · exact ((List.perm_insertionSort longerFirst _).nodup_iff).mpr (List.nodup_dedup _)
  · intro s
    rw [List.mem_insertionSort, List.mem_dedup]
  · exact List.sorted_insertionSort longerFirst _

/-- A concrete two-node workflow with a duplicated prompt string across the
nodes, used in the C9 witness. -/
def c9nodes : List ComfyNode :=
  [ { class_type := "CLIPTextEncode",
      inputs := [("text", JVal.str ("a much longer prompt"))] },
    { class_type := "CLIPTextEncodeSDXL",
      inputs := [("text_g", JVal.str ("a much longer prompt")),
                 ("text_l", JVal.str ("short text"))] } ]

/-- Claim C9 witness: the duplicated prompt of the concrete workflow is
returned exactly once, longest-first. -/
theorem C9_witness :
    ∃ l : List String,
      extract_comfy_prompt c9nodes = some (String.intercalate ("\n") l) ∧
      l.Nodup ∧
      (∀ s, s ∈ l ↔ s ∈ collectPrompts c9nodes) ∧
      l.Sorted longerFirst :=
  C9_extract_distinct_sorted c9nodes (by decide)

/-! ## Claims about the batch caption worker -/

/-- The job configuration of the C2 scenario: three images, none captioned,
overwrite off, caption client returning a cat for every image. -/
def c2cfg : Config :=
  { images := [{ stem := "img1", ext := ".png" }, { stem := "img2", ext := ".png" },
               { stem := "img3", ext := ".png" }]
    overwrite := false
    api := fun _ => "a cat" }

/-- The C2 scenario run: empty directory state, stop flag never set. -/
def c2run : RunResult := CaptionWorker.run c2cfg (fun _ => false) []

/-- Claim C2 counterexample: in the three-image scenario the reported progress
percentages are 0, 33 and 66; no emission reports 100, so the final reported
progress percentage is 66, not 100 (the finished signal carries no percentage
and the finish handler does not touch the progress bar). -/
theorem C2_counterexample :
    progressPcts c2run.events = [0, 33, 66] ∧
    (100 : Nat) ∉ progressPcts c2run.events := by
  constructor <;> decide

/-- Claim C2 (amended): in the three-image scenario every sidecar contains
exactly the returned caption, the terminal signal is the completion message,
and the reported progress percentages are floor(index / total * 100) with a
pre-increment index, so 0, 33 and 66, the final one being 66. -/
theorem C2_three_images :
    FS.lookup c2run.fs ("img1.txt") = some ("a cat") ∧
    FS.lookup c2run.fs ("img2.txt") = some ("a cat") ∧
    FS.lookup c2run.fs ("img3.txt") = some ("a cat") ∧
    c2run.events.getLast? = some (Event.finished ("Processing Complete!")) ∧
    progressPcts c2run.events = [0, 33, 66] := by
  refine ⟨?_, ?_, ?_, ?_, ?_⟩ <;> decide

/-! ### Worker loop lemmas -/

/-- Lookup after a write: the written path has the new content, every other
path is unchanged. -/
theorem FS.lookup_write (fs : FS) (p q c : String) :
    FS.lookup (FS.write fs q c) p = if p = q then some c else FS.lookup fs p := rfl

/-- Writes never make a present path absent. -/
theorem isSome_lookup_write (fs : FS) (p q c : String)
    (h : (FS.lookup fs p).isSome = true) :
    (FS.lookup (FS.write fs q c) p).isSome = true := by
  rw [FS.lookup_write]
  by_cases hpq : p = q <;> simp [hpq, h]

/-- The worker loop always emits at least one signal. -/
theorem runLoop_events_ne_nil (o : Bool) (api : ImageFile → String)
    (stop : Nat → Bool) (total : Nat) (files : List ImageFile) :
    ∀ (i : Nat) (fs : FS), (runLoop o api stop total files i fs).events ≠ [] := by
  induction files with
  | nil => intro i fs; simp [runLoop]
  | cons f rest ih =>
    intro i fs
    by_cases hstop : stop i
    · simp [runLoop, hstop]
    · by_cases hex : ((FS.lookup fs (ImageFile.txtPath f)).isSome && !o) = true <;>
        simp [runLoop, hstop, hex]

/-- Appending two fixed signals and one more in front does not change the last
emission when the tail is non-empty. -/
theorem getLast?_two_cons {α : Type} (e1 e2 ev : α) (tail : List α) (h : tail ≠ []) :
    ([e1, e2] ++ ev :: tail).getLast? = tail.getLast? := by
  rw [List.getLast?_append_cons]
  have hsplit : ev :: tail = [ev] ++ tail := rfl
  rw [hsplit, List.getLast?_append_of_ne_nil _ h]

/-- When the stop flag is never set, the worker loop terminates with the
completion message. -/
theorem runLoop_complete (o : Bool) (api : ImageFile → String) (stop : Nat → Bool)
    (total : Nat) (hstop : ∀ i, stop i = false) (files : List ImageFile) :
    ∀ (i : Nat) (fs : FS),
      (runLoop o api stop total files i fs).events.getLast? =
        some (Event.finished ("Processing Complete!")) := by
  induction files with
  | nil => intro i fs; simp [runLoop, hstop]
  | cons f rest ih =>
    intro i fs
    by_cases hex : ((FS.lookup fs (ImageFile.txtPath f)).isSome && !o) = true
    · simp only [runLoop, hstop, Bool.false_eq_true, if_false, hex, if_true]
      rw [getLast?_two_cons _ _ _ _ (runLoop_events_ne_nil o api stop total rest (i + 1) fs)]
      exact ih (i + 1) fs
    · simp only [runLoop, hstop, Bool.false_eq_true, if_false, hex]
      rw [getLast?_two_cons _ _ _ _ (runLoop_events_ne_nil o api stop total rest (i + 1) _)]
      exact ih (i + 1) _

/-- With overwrite off, a caption file that exists keeps its exact content
through a worker run: the loop writes only to paths it found absent. -/
theorem runLoop_keeps_existing (api : ImageFile → String) (stop : Nat → Bool)
    (total : Nat) (files : List ImageFile) :
    ∀ (i : Nat) (fs : FS) (p c : String),
      FS.lookup fs p = some c →
      FS.lookup (runLoop false api stop total files i fs).fs p = some c := by
  induction files with
  | nil => intro i fs p c h; simpa [runLoop] using h
  | cons f rest ih =>
    intro i fs p c h
    by_cases hstop : stop i
    · simpa [runLoop, hstop] using h
    · by_cases hex : (FS.lookup fs (ImageFile.txtPath f)).isSome = true
      · simp only [runLoop, hstop, Bool.false_eq_true, if_false, hex, Bool.not_false,
          Bool.and_true, if_true]
        exact ih (i + 1) fs p c h
      · simp only [runLoop, hstop, Bool.false_eq_true, if_false, hex, Bool.not_false,
          Bool.and_true]
        by_cases hw : shouldWrite (api f) = true
        · simp only [hw, if_true]
          refine ih (i + 1) _ p c ?_
          rw [FS.lookup_write]
          by_cases hpq : p = ImageFile.txtPath f
          · rw [hpq] at h
            rw [h] at hex
            simp at hex
          · simp [hpq, h]
        · simp only [hw, if_false]
          exact ih (i + 1) fs p c h

/-- The worker loop never touches a path outside the sidecar paths of its
remaining entries. -/
theorem runLoop_untouched (o : Bool) (api : ImageFile → String) (stop : Nat → Bool)
    (total : Nat) (files : List ImageFile) :
    ∀ (i : Nat) (fs : FS) (p : String), p ∉ files.map ImageFile.txtPath →
      FS.lookup (runLoop o api stop total files i fs).fs p = FS.lookup fs p := by
  induction files with
  | nil => intro i fs p _; simp [runLoop]
  | cons f rest ih =>
    intro i fs p hp
    rw [List.map_cons, List.mem_cons, not_or] at hp
    obtain ⟨hp1, hp2⟩ := hp
    by_cases hstop : stop i
    · simp [runLoop, hstop]
    · by_cases hex : ((FS.lookup fs (ImageFile.txtPath f)).isSome && !o) = true
      · simp only [runLoop, hstop, Bool.false_eq_true, if_false, hex, if_true]
        exact ih (i + 1) fs p hp2
      · simp only [runLoop, hstop, Bool.false_eq_true, if_false, hex]
        by_cases hw : shouldWrite (api f) = true
        · simp only [hw, if_true]
          rw [ih (i + 1) _ p hp2, FS.lookup_write, if_neg hp1]
        · simp only [hw, if_false]
          exact ih (i + 1) fs p hp2

/-- With overwrite off, the caption client is never invoked for an entry
whose sidecar exists when the run starts. -/
theorem runLoop_skips_existing (api : ImageFile → String) (stop : Nat → Bool)
    (total : Nat) (f : ImageFile) (files : List ImageFile) :
    ∀ (i : Nat) (fs : FS), (FS.lookup fs (ImageFile.txtPath f)).isSome = true →
      f ∉ (runLoop false api stop total files i fs).calls := by
  induction files with
  | nil => intro i fs _; simp [runLoop]
  | cons g rest ih =>
    intro i fs hsome
    by_cases hstop : stop i
    · simp [runLoop, hstop]
    · by_cases hex : (FS.lookup fs (ImageFile.txtPath g)).isSome = true
      · simp only [runLoop, hstop, Bool.false_eq_true, if_false, hex, Bool.not_false,
          Bool.and_true, if_true]
        exact ih (i + 1) fs hsome
      · simp only [runLoop, hstop, Bool.false_eq_true, if_false, hex, Bool.not_false,
          Bool.and_true]
        have hfg : f ≠ g := by
          intro hfg
          rw [hfg] at hsome
          exact hex hsome
        by_cases hw : shouldWrite (api g) = true
        · simp only [hw, if_true, List.mem_cons, not_or]
          exact ⟨hfg, ih (i + 1) _ (isSome_lookup_write fs _ _ _ hsome)⟩
        · simp only [hw, if_false, List.mem_cons, not_or]
          exact ⟨hfg, ih (i + 1) fs hsome⟩

/-- With overwrite off and the stop flag never set, an entry whose sidecar
exists gets an image-finished emission carrying exactly the existing file
content. -/
theorem runLoop_reuse_event (api : ImageFile → String) (stop : Nat → Bool)
    (total : Nat) (hstop : ∀ i, stop i = false) (f : ImageFile) (c : String)
    (files : List ImageFile) :
    ∀ (i : Nat) (fs : FS), f ∈ files →
      FS.lookup fs (ImageFile.txtPath f) = some c →
      Event.imageFinished (ImageFile.path f) c ∈
        (runLoop false api stop total files i fs).events := by
  induction files with
  | nil => intro i fs hmem _; cases hmem
  | cons g rest ih =>
    intro i fs hmem hcap
    rcases List.mem_cons.mp hmem with hfg | hrest
    · subst hfg
      have hex : (FS.lookup fs (ImageFile.txtPath f)).isSome = true := by
        rw [hcap]; rfl
      simp only [runLoop, hstop, Bool.false_eq_true, if_false, hex, Bool.not_false,
        Bool.and_true, if_true]
      rw [hcap]
      simp
    · by_cases hex : (FS.lookup fs (ImageFile.txtPath g)).isSome = true
      · simp only [runLoop, hstop, Bool.false_eq_true, if_false, hex, Bool.not_false,
          Bool.and_true, if_true]
        have := ih (i + 1) fs hrest hcap
        simp [this]
      · simp only [runLoop, hstop, Bool.false_eq_true, if_false, hex, Bool.not_false,
          Bool.and_true]
        have hne : ImageFile.txtPath f ≠ ImageFile.txtPath g := by
          intro hpq
          rw [← hpq, hcap] at hex
          exact hex rfl
        by_cases hw : shouldWrite (api g) = true
        · simp only [hw, if_true]
          have hcap2 : FS.lookup (FS.write fs (ImageFile.txtPath g) (api g))
              (ImageFile.txtPath f) = some c := by
            rw [FS.lookup_write, if_neg hne, hcap]
          have := ih (i + 1) _ hrest hcap2
          simp [this]
        · simp only [hw, if_false]
          have := ih (i + 1) fs hrest hcap
          simp [this]

/-- Claim C4 (confirmed): with overwrite off and a full (never-stopped) run,
every image whose sidecar already exists is never sent to the caption client,
its caption file content is unchanged after the run, and an image-finished
emission carries exactly the existing content. -/
theorem C4_skip_existing (cfg : Config) (stop : Nat → Bool) (fs : FS)
    (f : ImageFile) (c : String)
    (hov : cfg.overwrite = false)
    (hstop : ∀ i, stop i = false)
    (hmem : f ∈ cfg.images)
    (hcap : FS.lookup fs (ImageFile.txtPath f) = some c) :
    f ∉ (CaptionWorker.run cfg stop fs).calls ∧
    FS.lookup (CaptionWorker.run cfg stop fs).fs (ImageFile.txtPath f) = some c ∧
    Event.imageFinished (ImageFile.path f) c ∈ (CaptionWorker.run cfg stop fs).events := by
  have hlen : ¬ cfg.images.length = 0 := by
    cases hl : cfg.images with
    | nil => rw [hl] at hmem; cases hmem
    | cons a l => simp
  unfold CaptionWorker.run
  rw [if_neg hlen, hov]
  have hsome : (FS.lookup fs (ImageFile.txtPath f)).isSome = true := by rw [hcap]; rfl
  exact ⟨runLoop_skips_existing cfg.api stop cfg.images.length f cfg.images 0 fs hsome,
    runLoop_keeps_existing cfg.api stop cfg.images.length cfg.images 0 fs _ c hcap,
    runLoop_reuse_event cfg.api stop cfg.images.length hstop f c cfg.images 0 fs hmem hcap⟩

/-- The single-image configuration of the C4 witness, with a caption client
that would return fresh text if it were called. -/
def c4cfg : Config :=
  { images := [{ stem := "w4", ext := ".png" }]
    overwrite := false
    api := fun _ => "fresh caption" }

/-- Claim C4 witness: with w4.txt already containing the existing caption, the
run never calls the client for w4.png, keeps the file content, and re-emits
the existing caption. -/
theorem C4_witness :
    ({ stem := "w4", ext := ".png" } : ImageFile) ∉
      (CaptionWorker.run c4cfg (fun _ => false) [("w4.txt", "existing")]).calls ∧
    FS.lookup (CaptionWorker.run c4cfg (fun _ => false) [("w4.txt", "existing")]).fs
      (ImageFile.txtPath { stem := "w4", ext := ".png" }) = some ("existing") ∧
    Event.imageFinished (ImageFile.path { stem := "w4", ext := ".png" }) ("existing") ∈
      (CaptionWorker.run c4cfg (fun _ => false) [("w4.txt", "existing")]).events :=
  C4_skip_existing c4cfg (fun _ => false) [("w4.txt", "existing")]
    { stem := "w4", ext := ".png" } ("existing") rfl (fun _ => rfl) (by decide) (by decide)

/-- A caption carrying the error prefix never passes the persistence
guard. -/
theorem shouldWrite_of_error (c : String) (h : pyStartsWith c ("[ERROR]") = true) :
    shouldWrite c = false := by
  simp [shouldWrite, h]

/-- When the stop flag is never set and the sidecar paths of the scan result
are pairwise distinct, an entry that would be sent to the client (absent
sidecar, or overwrite on) and whose client result carries the error prefix
gets an image-finished emission with exactly the failure text, while its
sidecar path keeps its prior state (in particular no file appears there). -/
theorem runLoop_failure (o : Bool) (api : ImageFile → String) (stop : Nat → Bool)
    (total : Nat) (hstop : ∀ i, stop i = false) (f : ImageFile)
    (hfail : pyStartsWith (api f) ("[ERROR]") = true) (files : List ImageFile) :
    ∀ (i : Nat) (fs : FS), f ∈ files →
      (files.map ImageFile.txtPath).Nodup →
      (FS.lookup fs (ImageFile.txtPath f) = none ∨ o = true) →
      Event.imageFinished (ImageFile.path f) (api f) ∈
        (runLoop o api stop total files i fs).events ∧
      FS.lookup (runLoop o api stop total files i fs).fs (ImageFile.txtPath f) =
        FS.lookup fs (ImageFile.txtPath f) := by
  induction files with
  | nil => intro i fs hmem _ _; cases hmem
  | cons g rest ih =>
    intro i fs hmem hnodup hcalled
    rw [List.map_cons, List.nodup_cons] at hnodup
    obtain ⟨hghead, hnodup2⟩ := hnodup
    rcases List.mem_cons.mp hmem with hfg | hrest
    · subst hfg
      have hcond : ((FS.lookup fs (ImageFile.txtPath f)).isSome && !o) = false := by
        rcases hcalled with hnone | ho
        · rw [hnone]; rfl
        · rw [ho]; simp
      simp only [runLoop, hstop, Bool.false_eq_true, if_false, hcond,
        shouldWrite_of_error (api f) hfail]
      constructor
      · simp
      · have hout : ImageFile.txtPath f ∉ rest.map ImageFile.txtPath := hghead
        exact runLoop_untouched o api stop total rest (i + 1) fs _ hout
    · have hne : ImageFile.txtPath f ≠ ImageFile.txtPath g := by
        intro hpq
        exact hghead (hpq ▸ List.mem_map_of_mem ImageFile.txtPath hrest)
      by_cases hex : ((FS.lookup fs (ImageFile.txtPath g)).isSome && !o) = true
      · simp only [runLoop, hstop, Bool.false_eq_true, if_false, hex, if_true]
        have := ih (i + 1) fs hrest hnodup2 hcalled
        exact ⟨by simp [this.1], this.2⟩
      · simp only [runLoop, hstop, Bool.false_eq_true, if_false, hex]
        by_cases hw : shouldWrite (api g) = true
        · simp only [hw, if_true]
          have hpres : FS.lookup (FS.write fs (ImageFile.txtPath g) (api g))
              (ImageFile.txtPath f) = FS.lookup fs (ImageFile.txtPath f) := by
            rw [FS.lookup_write, if_neg hne]
          have hcalled2 : FS.lookup (FS.write fs (ImageFile.txtPath g) (api g))
              (ImageFile.txtPath f) = none ∨ o = true := by
            rcases hcalled with hnone | ho
            · exact Or.inl (by rw [hpres, hnone])
            · exact Or.inr ho
          have := ih (i + 1) _ hrest hnodup2 hcalled2
          exact ⟨by simp [this.1], by rw [this.2, hpres]⟩
        · simp only [hw, if_false]
          have := ih (i + 1) fs hrest hnodup2 hcalled
          exact ⟨by simp [this.1], this.2⟩

/-- Claim C5 (confirmed): in a full (never-stopped) run over a directory with
pairwise distinct sidecar paths, an image whose client call returns an
error-prefixed failure value has that failure text emitted as its caption,
while its sidecar path keeps its prior state (so no caption file is written
for it), and the batch still terminates with the completion message. -/
theorem C5_failure_surfaced (cfg : Config) (stop : Nat → Bool) (fs : FS)
    (f : ImageFile)
    (hstop : ∀ i, stop i = false)
    (hnodup : (cfg.images.map ImageFile.txtPath).Nodup)
    (hmem : f ∈ cfg.images)
    (hfail : pyStartsWith (cfg.api f) ("[ERROR]") = true)
    (hcalled : FS.lookup fs (ImageFile.txtPath f) = none ∨ cfg.overwrite = true) :
    Event.imageFinished (ImageFile.path f) (cfg.api f) ∈
      (CaptionWorker.run cfg stop fs).events ∧
    FS.lookup (CaptionWorker.run cfg stop fs).fs (ImageFile.txtPath f) =
      FS.lookup fs (ImageFile.txtPath f) ∧
    (CaptionWorker.run cfg stop fs).events.getLast? =
      some (Event.finished ("Processing Complete!")) := by
  have hlen : ¬ cfg.images.length = 0 := by
    cases hl : cfg.images with
    | nil => rw [hl] at hmem; cases hmem
    | cons a l => simp
  unfold CaptionWorker.run
  rw [if_neg hlen]
  have hmain := runLoop_failure cfg.overwrite cfg.api stop cfg.images.length hstop f
    hfail cfg.images 0 fs hmem hnodup hcalled
  exact ⟨hmain.1, hmain.2,
    runLoop_complete cfg.overwrite cfg.api stop cfg.images.length hstop cfg.images 0 fs⟩

/-- The middle image of the C5 witness scenario, for which the mocked caption
client fails. -/
def c5b : ImageFile := { stem := "c5b", ext := ".png" }

/-- The three-image configuration of the C5 witness: the client times out on
the middle image and succeeds on the other two. -/
def c5cfg : Config :=
  { images := [{ stem := "c5a", ext := ".png" }, c5b, { stem := "c5c", ext := ".png" }]
    overwrite := false
    api := fun f => if f = c5b then "[ERROR] timeout" else "a fine caption" }

/-- Claim C5 witness: the failing middle image has its failure text emitted,
gets no caption file, and the batch still completes. -/
theorem C5_witness :
    Event.imageFinished (ImageFile.path c5b) (c5cfg.api c5b) ∈
      (CaptionWorker.run c5cfg (fun _ => false) []).events ∧
    FS.lookup (CaptionWorker.run c5cfg (fun _ => false) []).fs
      (ImageFile.txtPath c5b) = FS.lookup [] (ImageFile.txtPath c5b) ∧
    (CaptionWorker.run c5cfg (fun _ => false) []).events.getLast? =
      some (Event.finished ("Processing Complete!")) :=
  C5_failure_surfaced c5cfg (fun _ => false) [] c5b (fun _ => rfl) (by decide)
    (by decide) (by decide) (Or.inl rfl)

/-- When the stop flag is first observed set at the boundary before entry k
(0-based), the worker loop processes exactly the entries before k and
terminates with the stopped message. -/
theorem runLoop_stopped (o : Bool) (api : ImageFile → String) (stop : Nat → Bool)
    (total : Nat) (k : Nat)
    (hbefore : ∀ i, i < k → stop i = false)
    (hafter : ∀ i, k ≤ i → stop i = true) (files : List ImageFile) :
    ∀ (i : Nat) (fs : FS), i ≤ k → k ≤ i + files.length →
      processedPaths (runLoop o api stop total files i fs).events =
        (files.take (k - i)).map ImageFile.path ∧
      (runLoop o api stop total files i fs).events.getLast? =
        some (Event.finished ("Processing Stopped.")) := by
  induction files with
  | nil =>
    intro i fs hik hki
    have hik' : k = i := Nat.le_antisymm (by simpa using hki) hik
    simp [runLoop, hafter i (Nat.le_of_eq hik'), processedPaths, Event.processedPath]
  | cons f rest ih =>
    intro i fs hik hki
    rcases Nat.lt_or_ge i k with hlt | hge
    · have hstop : stop i = false := hbefore i hlt
      have htake : k - i = (k - (i + 1)) + 1 := by omega
      by_cases hex : ((FS.lookup fs (ImageFile.txtPath f)).isSome && !o) = true
      · have hih1 := ih (i + 1) fs (by omega) (by
          simp only [List.length_cons] at hki
          omega)
        simp only [runLoop, hstop, Bool.false_eq_true, if_false, hex, if_true]
        constructor
        · simp only [processedPaths, List.filterMap_append, List.filterMap_cons,
            Event.processedPath, List.filterMap_nil]
          rw [htake, List.take_succ_cons, List.map_cons]
          simpa [processedPaths] using congrArg (List.cons (ImageFile.path f)) hih1.1
        · rw [getLast?_two_cons _ _ _ _
            (runLoop_events_ne_nil o api stop total rest (i + 1) fs)]
          exact hih1.2
      · simp only [runLoop, hstop, Bool.false_eq_true, if_false, hex]
        by_cases hw : shouldWrite (api f) = true
        · have hih1 := ih (i + 1) (FS.write fs (ImageFile.txtPath f) (api f)) (by omega) (by
            simp only [List.length_cons] at hki
            omega)
          simp only [hw, if_true]
          constructor
          · simp only [processedPaths, List.filterMap_append, List.filterMap_cons,
              Event.processedPath, List.filterMap_nil]
            rw [htake, List.take_succ_cons, List.map_cons]
            simpa [processedPaths] using congrArg (List.cons (ImageFile.path f)) hih1.1
          · rw [getLast?_two_cons _ _ _ _
              (runLoop_events_ne_nil o api stop total rest (i + 1) _)]
            exact hih1.2
        · have hih1 := ih (i + 1) fs (by omega) (by
            simp only [List.length_cons] at hki
            omega)
          simp only [hw, if_false]
          constructor
          · simp only [processedPaths, List.filterMap_append, List.filterMap_cons,
              Event.processedPath, List.filterMap_nil]
            rw [htake, List.take_succ_cons, List.map_cons]
            simpa [processedPaths] using congrArg (List.cons (ImageFile.path f)) hih1.1
          · rw [getLast?_two_cons _ _ _ _
              (runLoop_events_ne_nil o api stop total rest (i + 1) _)]
            exact hih1.2
    · have hik' : k = i := Nat.le_antisymm hge hik
      have hstop : stop i = true := hafter i hge
      simp [runLoop, hstop, processedPaths, Event.processedPath, hik']

/-- Claim C6 (confirmed): in a non-empty batch run where the cooperative stop
flag becomes set after entry k finishes (false at every per-entry check before
entry k, true from the check before entry k+1 on, with k counted 0-based as
the number of completed entries), no entry after the first k is processed and
the terminal signal is the stopped message rather than the completion
message. -/
theorem C6_cooperative_stop (cfg : Config) (stop : Nat → Bool) (fs : FS) (k : Nat)
    (hne : cfg.images ≠ [])
    (hk : k ≤ cfg.images.length)
    (hbefore : ∀ i, i < k → stop i = false)
    (hafter : ∀ i, k ≤ i → stop i = true) :
    processedPaths (CaptionWorker.run cfg stop fs).events =
      (cfg.images.take k).map ImageFile.path ∧
    (CaptionWorker.run cfg stop fs).events.getLast? =
      some (Event.finished ("Processing Stopped.")) := by
  have hlen : ¬ cfg.images.length = 0 := by
    intro h0
    exact hne (List.length_eq_zero.mp h0)
  unfold CaptionWorker.run
  rw [if_neg hlen]
  have := runLoop_stopped cfg.overwrite cfg.api stop cfg.images.length k hbefore hafter
    cfg.images 0 fs (Nat.zero_le k) (by simpa using hk)
  simpa using this

/-- The three-image configuration of the C6 witness. -/
def c6cfg : Config :=
  { images := [{ stem := "s1", ext := ".png" }, { stem := "s2", ext := ".png" },
               { stem := "s3", ext := ".png" }]
    overwrite := false
    api := fun _ => "a cat" }

/-- Claim C6 witness: with the flag set after the first of three entries, only
the first image is processed and the run ends with the stopped message. -/
theorem C6_witness :
    processedPaths (CaptionWorker.run c6cfg (fun i => !(i == 0)) []).events =
      (c6cfg.images.take 1).map ImageFile.path ∧
    (CaptionWorker.run c6cfg (fun i => !(i == 0)) []).events.getLast? =
      some (Event.finished ("Processing Stopped.")) :=
  C6_cooperative_stop c6cfg (fun i => !(i == 0)) [] 1 (by decide) (by decide)
    (fun i hi => by
      have h0 : i = 0 := Nat.lt_one_iff.mp hi
      subst h0; rfl)
    (fun i hi => by
      cases i with
      | zero => omega
      | succ n => rfl)

end Captioner
